import Mathlib

/-!
Verification of the libsignal-client bridge layer
(src/rust/bridge/shared/src/lib.rs) as a shallow embedding in Lean 4.

The bridge file wires the underlying `libsignal_protocol` crate to host
runtimes.  Where the deciding logic is in the bridge file itself, the
definitions below follow that file line by line; where the bridge merely
calls into the protocol crate (whose sources are not part of this
repository snapshot), the called operation is modelled from the
specification, and each such definition says so in its doc comment.
-/

namespace LibsignalBridge

/-- Error taxonomy of the protocol crate, restricted to the constructors the
bridge code in this repository matches on or constructs. -/
inductive SignalProtocolError where
  | InvalidArgument (msg : String)
  | InvalidState (func : String) (msg : String)
  | InvalidKey (msg : String)
  | InvalidMessage (msg : String)
  | SignatureVerificationFailed
  deriving DecidableEq

/-- Byte strings are modelled as lists of naturals; a well-formed byte is
below 256, which the encoders below preserve. -/
abbrev Bytes := List Nat

/-- Fuel-indexed worker of the varint encoder; the fuel bounds the number
of 7-bit groups and is structurally decreasing, so the encoder reduces
definitionally. -/
def varintEncodeAux : Nat → Nat → Bytes
  | 0, n => [n]
  | fuel + 1, n =>
    if n < 128 then [n] else (n % 128 + 128) :: varintEncodeAux fuel (n / 128)

/-- Modelled from the spec: the varint-style counter encoding used by the
wire formats of section 6 (a base-128 little-endian encoding with a
continuation bit, as in protobuf). -/
def varintEncode (n : Nat) : Bytes :=
  varintEncodeAux n n

/-- Modelled from the spec: decoder for the varint counter encoding,
returning the value and the unconsumed remainder. -/
def varintDecode : Bytes → Option (Nat × Bytes)
  | [] => none
  | b :: rest =>
    if b < 128 then some (b, rest)
    else
      match varintDecode rest with
      | some (v, rem) => some (v * 128 + (b - 128), rem)
      | none => none

theorem varintDecodeAux_encode (fuel : Nat) :
    ∀ (n : Nat) (rest : Bytes), n ≤ fuel →
      varintDecode (varintEncodeAux fuel n ++ rest) = some (n, rest) := by
  induction fuel with
  | zero =>
    intro n rest hn
    have hz : n = 0 := Nat.le_zero.mp hn
    subst hz
    simp [varintEncodeAux, varintDecode]
  | succ fuel ih =>
    intro n rest hn
    by_cases h : n < 128
    · simp [varintEncodeAux, h, varintDecode]
    · have hdivlt : n / 128 < n :=
        Nat.div_lt_self (Nat.lt_of_lt_of_le (by norm_num) (Nat.le_of_not_lt h)) (by norm_num)
      have hdivle : n / 128 ≤ fuel := by omega
      rw [varintEncodeAux]
      simp only [h, if_false, List.cons_append]
      have hmod : n % 128 + 128 ≥ 128 := Nat.le_add_left _ _
      rw [varintDecode]
      simp only [Nat.not_lt.mpr hmod, if_false]
      rw [ih (n / 128) rest hdivle]
      simp only []
      have h2 : n / 128 * 128 + n % 128 = n := by omega
      simp [h2]

theorem varintDecode_encode (n : Nat) (rest : Bytes) :
    varintDecode (varintEncode n ++ rest) = some (n, rest) :=
  varintDecodeAux_encode n n rest (Nat.le_refl n)

theorem take_length_append (l r : Bytes) : (l ++ r).take l.length = l := by
  induction l with
  | nil => simp
  | cons a as ih => simp [List.take, ih]

theorem drop_length_append (l r : Bytes) : (l ++ r).drop l.length = r := by
  induction l with
  | nil => simp
  | cons a as ih => simp [List.drop, ih]

/-- Reads exactly `n` bytes from the input, failing when fewer remain. -/
def readBytes (n : Nat) (data : Bytes) : Option (Bytes × Bytes) :=
  if n ≤ data.length then some (data.take n, data.drop n) else none

theorem readBytes_append (l r : Bytes) : readBytes l.length (l ++ r) = some (l, r) := by
  simp [readBytes, take_length_append, drop_length_append]

/-- Length in bytes of a raw curve point. -/
def KEY_LEN : Nat := 32

/-- Key-type tag byte prepended to a serialized public key. -/
def DJB_TYPE : Nat := 5

/-- Length in bytes of a signature; malformed lengths are a verify error. -/
def SIG_LEN : Nat := 64

/-- Length in bytes of the truncated MAC trailing a SignalMessage. -/
def MAC_LEN : Nat := 8

/-- Modelled from the spec: an elliptic-curve public key of the key
primitives component, carried as its raw curve-point bytes (the serialized
form is a type byte plus these bytes). -/
structure PublicKey where
  bytes : Bytes
  deriving DecidableEq

/-- Modelled from the spec: an elliptic-curve private key, carried as its
scalar. -/
structure PrivateKey where
  scalar : Nat
  deriving DecidableEq

/-- Modelled from the spec: the serialized public-key form, a 1-byte type
tag plus the fixed-width curve payload. -/
def PublicKey.serialize (k : PublicKey) : Bytes :=
  DJB_TYPE :: k.bytes

/-- Modelled from the spec: public-key deserialization, failing with a
decoding error on wrong length or invalid type tag. -/
def PublicKey.deserialize (value : Bytes) : Except SignalProtocolError PublicKey :=
  match value with
  | [] => .error (.InvalidKey "no key type identifier")
  | t :: rest =>
    if t = DJB_TYPE then
      if rest.length = KEY_LEN then .ok ⟨rest⟩
      else .error (.InvalidKey "bad key length")
    else .error (.InvalidKey "bad key type identifier")

/-- Shallow embedding of the bridge function ECPublicKey_Deserialize.  The
source takes the unguarded slice data[offset..] before deserializing; a
slice whose start exceeds the length panics in Rust, modelled here as the
outer none (a typed deserialization failure is some (.error e)). -/
def ECPublicKey_Deserialize (data : Bytes) (offset : Nat) :
    Option (Except SignalProtocolError PublicKey) :=
  if offset ≤ data.length then some (PublicKey.deserialize (data.drop offset)) else none

/-- Modelled from the spec: the deterministic total order over public keys
of the key primitives, as lexicographic comparison on the key bytes. -/
def compareBytes : Bytes → Bytes → Ordering
  | [], [] => .eq
  | [], _ :: _ => .lt
  | _ :: _, [] => .gt
  | a :: as, b :: bs =>
    if a < b then .lt else if b < a then .gt else compareBytes as bs

/-- Shallow embedding of the bridge function ECPublicKey_Compare: the
Ordering of the two keys mapped to -1, 0, 1. -/
def ECPublicKey_Compare (key1 key2 : PublicKey) : Int :=
  match compareBytes key1.bytes key2.bytes with
  | .lt => -1
  | .eq => 0
  | .gt => 1

/-- Modelled from the spec: a deterministic signature over a message,
verifiable by the named public key.  The idealized signature of the model
is a fixed-width byte string determined by the verifying key and the
message. -/
def mockSig (key : PublicKey) (message : Bytes) : Bytes :=
  (List.range SIG_LEN).map
    (fun i => (i + key.bytes.sum + message.sum * 3 + message.length) % 256)

theorem mockSig_length (key : PublicKey) (message : Bytes) :
    (mockSig key message).length = SIG_LEN := by
  simp [mockSig]

/-- Modelled from the spec: signature verification, returning false (not an
error) on mismatch but erroring on malformed signature length. -/
def PublicKey.verify_signature (key : PublicKey) (message : Bytes) (signature : Bytes) :
    Except SignalProtocolError Bool :=
  if signature.length = SIG_LEN then .ok (decide (signature = mockSig key message))
  else .error (.InvalidArgument "bad signature length")

/-- Shallow embedding of the bridge function ECPublicKey_Verify. -/
def ECPublicKey_Verify (key : PublicKey) (message : Bytes) (signature : Bytes) :
    Except SignalProtocolError Bool :=
  key.verify_signature message signature

/-- Modulus of the model Diffie-Hellman group (kept below 256 so a group
element is a single byte). -/
def DH_P : Nat := 251

/-- Generator of the model Diffie-Hellman group. -/
def DH_G : Nat := 7

/-- Modelled from the spec: the public key corresponding to a private
scalar, as group exponentiation of the generator. -/
def pubKeyOf (k : PrivateKey) : PublicKey :=
  ⟨[DH_G ^ k.scalar % DH_P]⟩

/-- Interprets public-key bytes as a group element (base-256 value). -/
def natOfBytes (b : Bytes) : Nat :=
  b.foldl (fun acc d => acc * 256 + d) 0

/-- Modelled from the spec: the Diffie-Hellman shared secret between a
private and a public key. -/
def dhAgree (priv : PrivateKey) (pub : PublicKey) : Nat :=
  natOfBytes pub.bytes ^ priv.scalar % DH_P

theorem dhAgree_comm (a b : PrivateKey) :
    dhAgree a (pubKeyOf b) = dhAgree b (pubKeyOf a) := by
  simp only [dhAgree, pubKeyOf, natOfBytes, List.foldl, Nat.zero_mul, Nat.zero_add]
  rw [← Nat.pow_mod, ← Nat.pow_mod, ← Nat.pow_mul, ← Nat.pow_mul, Nat.mul_comm]

/-- Version constant carried in the low nibble of a message version byte. -/
def CIPHERTEXT_CURRENT_VERSION : Nat := 3

/-- Reads the leading version byte: high nibble is the message version, low
nibble must hold the expected current-version constant. -/
def readVersionByte (expected : Nat) : Bytes → Option (Nat × Bytes)
  | [] => none
  | vb :: rest => if vb % 16 = expected then some (vb / 16, rest) else none

theorem readVersionByte_append (v e : Nat) (he : e < 16) (r : Bytes) :
    readVersionByte e ((v * 16 + e) :: r) = some (v, r) := by
  have h1 : (v * 16 + e) % 16 = e := by omega
  have h2 : (v * 16 + e) / 16 = v := by omega
  simp [readVersionByte, h1, h2]

/-- Reads a serialized public key (type tag plus fixed-width payload). -/
def readKey (data : Bytes) : Option (PublicKey × Bytes) :=
  match readBytes (KEY_LEN + 1) data with
  | none => none
  | some (kb, rest) =>
    match PublicKey.deserialize kb with
    | .ok k => some (k, rest)
    | .error _ => none

theorem readKey_append (k : PublicKey) (r : Bytes) (h : k.bytes.length = KEY_LEN) :
    readKey (k.serialize ++ r) = some (k, r) := by
  have hl : k.serialize.length = KEY_LEN + 1 := by simp [PublicKey.serialize, h]
  rw [readKey, ← hl, readBytes_append]
  simp [PublicKey.serialize, PublicKey.deserialize, h]

/-- Splits the input so that the suffix has exactly the given length (the
trailing fixed-width MAC or signature of a wire message). -/
def readTail (sufLen : Nat) (data : Bytes) : Option (Bytes × Bytes) :=
  if sufLen ≤ data.length then
    some (data.take (data.length - sufLen), data.drop (data.length - sufLen))
  else none

theorem readTail_append (l r : Bytes) : readTail r.length (l ++ r) = some (l, r) := by
  have hlen : (l ++ r).length - r.length = l.length := by simp
  have hle : r.length ≤ (l ++ r).length := by simp
  rw [readTail, if_pos hle, hlen, take_length_append, drop_length_append]

/-- A length-prefixed byte field. -/
def lenPrefixed (b : Bytes) : Bytes := varintEncode b.length ++ b

/-- Reads a length-prefixed byte field. -/
def readLenPrefixed (data : Bytes) : Option (Bytes × Bytes) :=
  match varintDecode data with
  | none => none
  | some (len, rest) => readBytes len rest

theorem readLenPrefixed_append (l r : Bytes) :
    readLenPrefixed (lenPrefixed l ++ r) = some (l, r) := by
  simp [lenPrefixed, readLenPrefixed, varintDecode_encode, readBytes_append]

/-- Encodes an optional varint field behind a presence byte. -/
def optVarintEncode : Option Nat → Bytes
  | none => [0]
  | some n => 1 :: varintEncode n

/-- Reads an optional varint field behind a presence byte. -/
def readOptVarint : Bytes → Option (Option Nat × Bytes)
  | 0 :: rest => some (none, rest)
  | 1 :: rest => (varintDecode rest).map (fun p => (some p.1, p.2))
  | _ => none

theorem readOptVarint_append (o : Option Nat) (r : Bytes) :
    readOptVarint (optVarintEncode o ++ r) = some (o, r) := by
  cases o with
  | none => simp [optVarintEncode, readOptVarint]
  | some n => simp [optVarintEncode, readOptVarint, varintDecode_encode]

/-- Encodes an optional length-prefixed byte field behind a presence byte. -/
def optBytesEncode : Option Bytes → Bytes
  | none => [0]
  | some b => 1 :: lenPrefixed b

/-- Reads an optional length-prefixed byte field behind a presence byte. -/
def readOptBytes : Bytes → Option (Option Bytes × Bytes)
  | 0 :: rest => some (none, rest)
  | 1 :: rest => (readLenPrefixed rest).map (fun p => (some p.1, p.2))
  | _ => none

theorem readOptBytes_append (o : Option Bytes) (r : Bytes) :
    readOptBytes (optBytesEncode o ++ r) = some (o, r) := by
  cases o with
  | none => simp [optBytesEncode, readOptBytes]
  | some b => simp [optBytesEncode, readOptBytes, readLenPrefixed_append]

/-- Modelled from the spec: a SignalMessage, the ratchet-protected
ciphertext with sender ratchet public key, counters, body and trailing
MAC. -/
structure SignalMessage where
  message_version : Nat
  sender_ratchet_key : PublicKey
  counter : Nat
  previous_counter : Nat
  body : Bytes
  mac : Bytes
  deriving DecidableEq

/-- Field well-formedness of a SignalMessage: the version fits its nibble,
the ratchet key has the fixed curve width, and the MAC has its fixed
width. -/
def SignalMessage.Valid (m : SignalMessage) : Prop :=
  m.message_version < 16 ∧ m.sender_ratchet_key.bytes.length = KEY_LEN ∧
    m.mac.length = MAC_LEN

instance (m : SignalMessage) : Decidable m.Valid := by
  unfold SignalMessage.Valid; infer_instance

/-- Modelled from the spec: SignalMessage wire encoding, a version nibble
pair byte, the serialized sender ratchet key, varint counters, the
ciphertext and the trailing fixed-width MAC. -/
def SignalMessage.serialized (m : SignalMessage) : Bytes :=
  (m.message_version * 16 + CIPHERTEXT_CURRENT_VERSION) ::
    (m.sender_ratchet_key.serialize ++ varintEncode m.counter ++
      varintEncode m.previous_counter ++ m.body ++ m.mac)

/-- Modelled from the spec: SignalMessage wire decoding. -/
def SignalMessage.decodeOpt (data : Bytes) : Option SignalMessage := do
  let (mv, r1) ← readVersionByte CIPHERTEXT_CURRENT_VERSION data
  let (key, r2) ← readKey r1
  let (ctr, r3) ← varintDecode r2
  let (pctr, r4) ← varintDecode r3
  let (body, mac) ← readTail MAC_LEN r4
  some ⟨mv, key, ctr, pctr, body, mac⟩

/-- Bridged deserialization entry point for SignalMessage (the source
registers SignalMessage::try_from); malformed bytes give a typed error. -/
def SignalMessage.try_from (data : Bytes) : Except SignalProtocolError SignalMessage :=
  match SignalMessage.decodeOpt data with
  | some m => .ok m
  | none => .error (.InvalidMessage "malformed SignalMessage")

theorem signalMessage_decode_encode (m : SignalMessage) (h : m.Valid) :
    SignalMessage.decodeOpt m.serialized = some m := by
  obtain ⟨hv, hk, hm⟩ := h
  have ht := readTail_append m.body m.mac
  rw [hm] at ht
  have hcv : CIPHERTEXT_CURRENT_VERSION < 16 := by norm_num [CIPHERTEXT_CURRENT_VERSION]
  simp [SignalMessage.decodeOpt, SignalMessage.serialized,
    readVersionByte_append _ _ hcv, readKey_append _ _ hk, varintDecode_encode, ht]

/-- Modelled from the spec: a PreKeySignalMessage, wrapping a SignalMessage
plus the X3DH handshake fields. -/
structure PreKeySignalMessage where
  message_version : Nat
  registration_id : Nat
  pre_key_id : Option Nat
  signed_pre_key_id : Nat
  base_key : PublicKey
  identity_key : PublicKey
  message : SignalMessage
  deriving DecidableEq

/-- Field well-formedness of a PreKeySignalMessage. -/
def PreKeySignalMessage.Valid (p : PreKeySignalMessage) : Prop :=
  p.message_version < 16 ∧ p.base_key.bytes.length = KEY_LEN ∧
    p.identity_key.bytes.length = KEY_LEN ∧ p.message.Valid

instance (p : PreKeySignalMessage) : Decidable p.Valid := by
  unfold PreKeySignalMessage.Valid; infer_instance

/-- Modelled from the spec: PreKeySignalMessage wire encoding, a version
byte, registration id, optional pre-key id, signed pre-key id, base key,
identity key and the embedded serialized SignalMessage. -/
def PreKeySignalMessage.serialized (p : PreKeySignalMessage) : Bytes :=
  (p.message_version * 16 + CIPHERTEXT_CURRENT_VERSION) ::
    (varintEncode p.registration_id ++ optVarintEncode p.pre_key_id ++
      varintEncode p.signed_pre_key_id ++ p.base_key.serialize ++
      p.identity_key.serialize ++ p.message.serialized)

/-- Modelled from the spec: PreKeySignalMessage wire decoding. -/
def PreKeySignalMessage.decodeOpt (data : Bytes) : Option PreKeySignalMessage := do
  let (mv, r1) ← readVersionByte CIPHERTEXT_CURRENT_VERSION data
  let (regId, r2) ← varintDecode r1
  let (pkid, r3) ← readOptVarint r2
  let (spkid, r4) ← varintDecode r3
  let (baseKey, r5) ← readKey r4
  let (identityKey, r6) ← readKey r5
  let msg ← SignalMessage.decodeOpt r6
  some ⟨mv, regId, pkid, spkid, baseKey, identityKey, msg⟩

/-- Bridged deserialization entry point for PreKeySignalMessage. -/
def PreKeySignalMessage.try_from (data : Bytes) :
    Except SignalProtocolError PreKeySignalMessage :=
  match PreKeySignalMessage.decodeOpt data with
  | some m => .ok m
  | none => .error (.InvalidMessage "malformed PreKeySignalMessage")

theorem PreKeysignalMessage_decode_encode (p : PreKeySignalMessage)
    (h : p.Valid) : PreKeySignalMessage.decodeOpt p.serialized = some p := by
  obtain ⟨hv, hb, hi, hmsg⟩ := h
  have hcv : CIPHERTEXT_CURRENT_VERSION < 16 := by norm_num [CIPHERTEXT_CURRENT_VERSION]
  have hinner := signalMessage_decode_encode p.message hmsg
  simp [PreKeySignalMessage.decodeOpt, PreKeySignalMessage.serialized,
    readVersionByte_append _ _ hcv, varintDecode_encode, readOptVarint_append,
    readKey_append _ _ hb, readKey_append _ _ hi, hinner]

/-- Modelled from the spec: a SenderKeyMessage, the group ciphertext with
key id, iteration, ciphertext and trailing signature. -/
structure SenderKeyMessage where
  key_id : Nat
  iteration : Nat
  ciphertext : Bytes
  signature : Bytes
  deriving DecidableEq

/-- Field well-formedness of a SenderKeyMessage: the trailing signature has
its fixed width. -/
def SenderKeyMessage.Valid (m : SenderKeyMessage) : Prop :=
  m.signature.length = SIG_LEN

instance (m : SenderKeyMessage) : Decidable m.Valid := by
  unfold SenderKeyMessage.Valid; infer_instance

/-- Modelled from the spec: SenderKeyMessage wire encoding, versioned
framing with key id, iteration, ciphertext and signature. -/
def SenderKeyMessage.serialized (m : SenderKeyMessage) : Bytes :=
  (CIPHERTEXT_CURRENT_VERSION * 16 + CIPHERTEXT_CURRENT_VERSION) ::
    (varintEncode m.key_id ++ varintEncode m.iteration ++ m.ciphertext ++ m.signature)

/-- Modelled from the spec: SenderKeyMessage wire decoding. -/
def SenderKeyMessage.decodeOpt (data : Bytes) : Option SenderKeyMessage := do
  let (_, r1) ← readVersionByte CIPHERTEXT_CURRENT_VERSION data
  let (kid, r2) ← varintDecode r1
  let (iter, r3) ← varintDecode r2
  let (ct, sig) ← readTail SIG_LEN r3
  some ⟨kid, iter, ct, sig⟩

/-- Bridged deserialization entry point for SenderKeyMessage. -/
def SenderKeyMessage.try_from (data : Bytes) :
    Except SignalProtocolError SenderKeyMessage :=
  match SenderKeyMessage.decodeOpt data with
  | some m => .ok m
  | none => .error (.InvalidMessage "malformed SenderKeyMessage")

theorem senderKeyMessage_decode_encode (m : SenderKeyMessage)
    (h : m.Valid) : SenderKeyMessage.decodeOpt m.serialized = some m := by
  have ht := readTail_append m.ciphertext m.signature
  rw [h] at ht
  have hcv : CIPHERTEXT_CURRENT_VERSION < 16 := by norm_num [CIPHERTEXT_CURRENT_VERSION]
  simp [SenderKeyMessage.decodeOpt, SenderKeyMessage.serialized,
    readVersionByte_append _ _ hcv, varintDecode_encode, ht]

/-- Modelled from the spec: a SenderKeyDistributionMessage, the group chain
bootstrap with id, iteration, chain key and signing public key. -/
structure SenderKeyDistributionMessage where
  id : Nat
  iteration : Nat
  chain_key : Bytes
  signing_key : PublicKey
  deriving DecidableEq

/-- Field well-formedness of a SenderKeyDistributionMessage. -/
def SenderKeyDistributionMessage.Valid (m : SenderKeyDistributionMessage) : Prop :=
  m.chain_key.length = KEY_LEN ∧ m.signing_key.bytes.length = KEY_LEN

instance (m : SenderKeyDistributionMessage) : Decidable m.Valid := by
  unfold SenderKeyDistributionMessage.Valid; infer_instance

/-- Modelled from the spec: SenderKeyDistributionMessage wire encoding,
versioned framing with key id, iteration, chain key and signing key. -/
def SenderKeyDistributionMessage.serialized (m : SenderKeyDistributionMessage) : Bytes :=
  (CIPHERTEXT_CURRENT_VERSION * 16 + CIPHERTEXT_CURRENT_VERSION) ::
    (varintEncode m.id ++ varintEncode m.iteration ++ m.chain_key ++
      m.signing_key.serialize)

/-- Modelled from the spec: SenderKeyDistributionMessage wire decoding; the
input must be consumed exactly. -/
def SenderKeyDistributionMessage.decodeOpt (data : Bytes) :
    Option SenderKeyDistributionMessage := do
  let (_, r1) ← readVersionByte CIPHERTEXT_CURRENT_VERSION data
  let (kid, r2) ← varintDecode r1
  let (iter, r3) ← varintDecode r2
  let (ck, r4) ← readBytes KEY_LEN r3
  let (sk, r5) ← readKey r4
  if r5 = [] then some ⟨kid, iter, ck, sk⟩ else none

/-- Bridged deserialization entry point for SenderKeyDistributionMessage. -/
def SenderKeyDistributionMessage.try_from (data : Bytes) :
    Except SignalProtocolError SenderKeyDistributionMessage :=
  match SenderKeyDistributionMessage.decodeOpt data with
  | some m => .ok m
  | none => .error (.InvalidMessage "malformed SenderKeyDistributionMessage")

theorem senderKeyDistributionMessage_decode_encode
    (m : SenderKeyDistributionMessage) (h : m.Valid) :
    SenderKeyDistributionMessage.decodeOpt m.serialized = some m := by
  obtain ⟨hc, hs⟩ := h
  have hcv : CIPHERTEXT_CURRENT_VERSION < 16 := by norm_num [CIPHERTEXT_CURRENT_VERSION]
  have hck : readBytes KEY_LEN (m.chain_key ++ m.signing_key.serialize) =
      some (m.chain_key, m.signing_key.serialize) := by
    rw [← hc, readBytes_append]
  have hsk := readKey_append m.signing_key [] hs
  rw [List.append_nil] at hsk
  simp [SenderKeyDistributionMessage.decodeOpt,
    SenderKeyDistributionMessage.serialized,
    readVersionByte_append _ _ hcv, varintDecode_encode, hck, hsk]

/-- Modelled from the spec: a ServerCertificate, a key id and server public
key signed by the trust root. -/
structure ServerCertificate where
  key_id : Nat
  key : PublicKey
  signature : Bytes
  deriving DecidableEq

/-- Modelled from the spec: the signed byte range of a ServerCertificate. -/
def ServerCertificate.certificate (c : ServerCertificate) : Bytes :=
  varintEncode c.key_id ++ c.key.serialize

/-- Modelled from the spec: ServerCertificate wire encoding, certificate
bytes plus detached signature in a nested framing. -/
def ServerCertificate.serialized (c : ServerCertificate) : Bytes :=
  lenPrefixed c.certificate ++ c.signature

/-- Field well-formedness of a ServerCertificate. -/
def ServerCertificate.Valid (c : ServerCertificate) : Prop :=
  c.key.bytes.length = KEY_LEN ∧ c.signature.length = SIG_LEN

instance (c : ServerCertificate) : Decidable c.Valid := by
  unfold ServerCertificate.Valid; infer_instance

/-- Modelled from the spec: ServerCertificate wire decoding. -/
def ServerCertificate.decodeOpt (data : Bytes) : Option ServerCertificate := do
  let (cert, sig) ← readLenPrefixed data
  let (kid, r1) ← varintDecode cert
  let (key, r2) ← readKey r1
  if r2 = [] ∧ sig.length = SIG_LEN then some ⟨kid, key, sig⟩ else none

/-- Bridged deserialization entry point for ServerCertificate. -/
def ServerCertificate.deserialize (data : Bytes) :
    Except SignalProtocolError ServerCertificate :=
  match ServerCertificate.decodeOpt data with
  | some c => .ok c
  | none => .error (.InvalidMessage "malformed ServerCertificate")

theorem serverCertificate_decode_encode (c : ServerCertificate)
    (h : c.Valid) : ServerCertificate.decodeOpt c.serialized = some c := by
  obtain ⟨hk, hs⟩ := h
  have hkey := readKey_append c.key [] hk
  rw [List.append_nil] at hkey
  simp [ServerCertificate.decodeOpt, ServerCertificate.serialized,
    ServerCertificate.certificate, readLenPrefixed_append, varintDecode_encode,
    hkey, hs]

/-- Modelled from the spec: a SenderCertificate, carrying the sender
identity fields and expiration, chained to the signing ServerCertificate by
a detached signature. -/
structure SenderCertificate where
  sender_uuid : Bytes
  sender_e164 : Option Bytes
  sender_device_id : Nat
  key : PublicKey
  expiration : Nat
  signer : ServerCertificate
  signature : Bytes
  deriving DecidableEq

/-- Modelled from the spec: the signed byte range of a SenderCertificate. -/
def SenderCertificate.certificate (c : SenderCertificate) : Bytes :=
  lenPrefixed c.sender_uuid ++ optBytesEncode c.sender_e164 ++
    varintEncode c.sender_device_id ++ c.key.serialize ++
    varintEncode c.expiration ++ c.signer.serialized

/-- Modelled from the spec: SenderCertificate wire encoding, certificate
bytes plus detached signature in a nested framing. -/
def SenderCertificate.serialized (c : SenderCertificate) : Bytes :=
  lenPrefixed c.certificate ++ c.signature

/-- Field well-formedness of a SenderCertificate. -/
def SenderCertificate.Valid (c : SenderCertificate) : Prop :=
  c.key.bytes.length = KEY_LEN ∧ c.signature.length = SIG_LEN ∧ c.signer.Valid

instance (c : SenderCertificate) : Decidable c.Valid := by
  unfold SenderCertificate.Valid; infer_instance

/-- Modelled from the spec: SenderCertificate wire decoding; the embedded
ServerCertificate occupies the tail of the signed byte range. -/
def SenderCertificate.decodeOpt (data : Bytes) : Option SenderCertificate := do
  let (cert, sig) ← readLenPrefixed data
  let (uuid, r1) ← readLenPrefixed cert
  let (e164, r2) ← readOptBytes r1
  let (dev, r3) ← varintDecode r2
  let (key, r4) ← readKey r3
  let (expi, r5) ← varintDecode r4
  let signer ← ServerCertificate.decodeOpt r5
  if sig.length = SIG_LEN then some ⟨uuid, e164, dev, key, expi, signer, sig⟩
  else none

/-- Bridged deserialization entry point for SenderCertificate. -/
def SenderCertificate.deserialize (data : Bytes) :
    Except SignalProtocolError SenderCertificate :=
  match SenderCertificate.decodeOpt data with
  | some c => .ok c
  | none => .error (.InvalidMessage "malformed SenderCertificate")

theorem senderCertificate_decode_encode (c : SenderCertificate)
    (h : c.Valid) : SenderCertificate.decodeOpt c.serialized = some c := by
  obtain ⟨hk, hs, hsigner⟩ := h
  have hkey := readKey_append c.key
    (varintEncode c.expiration ++ c.signer.serialized) hk
  have hinner := serverCertificate_decode_encode c.signer hsigner
  simp [SenderCertificate.decodeOpt, SenderCertificate.serialized,
    SenderCertificate.certificate, readLenPrefixed_append, readOptBytes_append,
    varintDecode_encode, hkey, hinner, hs]

/-- Modelled from the spec: SenderCertificate validation.  The trust-root
signature over the ServerCertificate and the server-key signature over the
SenderCertificate must both verify, and the validation time must be
strictly below the expiration (equal-to-expiration is expired). -/
def SenderCertificate.validate (cert : SenderCertificate) (trustRoot : PublicKey)
    (time : Nat) : Except SignalProtocolError Bool := do
  let serverSigOk ← trustRoot.verify_signature cert.signer.certificate
    cert.signer.signature
  let senderSigOk ← cert.signer.key.verify_signature cert.certificate
    cert.signature
  pure (serverSigOk && senderSigOk && decide (time < cert.expiration))

/-- Shallow embedding of the bridge function SenderCertificate_Validate. -/
def SenderCertificate_Validate (cert : SenderCertificate) (key : PublicKey)
    (time : Nat) : Except SignalProtocolError Bool :=
  cert.validate key time

/-- Modelled from the spec: one application of the fingerprint hash; the
model hash is injective, idealizing a collision-free hash. -/
def hashStep (d : Bytes) : Bytes := 0 :: d

/-- Modelled from the spec: the iterated hash of the fingerprint
subsystem. -/
def iterHash : Nat → Bytes → Bytes
  | 0, d => d
  | n + 1, d => hashStep (iterHash n d)

theorem iterHash_inj (n : Nat) (d1 d2 : Bytes) (h : iterHash n d1 = iterHash n d2) :
    d1 = d2 := by
  induction n with
  | zero => exact h
  | succ k ih =>
    apply ih
    simpa [iterHash, hashStep] using h

/-- Modelled from the spec: the hashed input of one side of a fingerprint,
an identifier and that side's identity public key. -/
def fingerprintData (ident : Bytes) (key : PublicKey) : Bytes :=
  lenPrefixed ident ++ key.serialize

/-- Modelled from the spec: one component fingerprint hash over a side's
identifier and identity key, iterated the given number of times. -/
def fingerprintHash (iterations : Nat) (ident : Bytes) (key : PublicKey) : Bytes :=
  iterHash iterations (fingerprintData ident key)

theorem fingerprintData_inj_key (ident : Bytes) (k1 k2 : PublicKey)
    (h : fingerprintData ident k1 = fingerprintData ident k2) : k1 = k2 := by
  have h2 := List.append_cancel_left h
  simp only [PublicKey.serialize] at h2
  cases k1; cases k2
  simpa using h2

/-- Modelled from the spec: the compact scannable fingerprint encoding,
pairing a version with the local and remote component hashes. -/
structure ScannableFingerprint where
  version : Nat
  localFingerprint : Bytes
  remoteFingerprint : Bytes
  deriving DecidableEq

/-- Modelled from the spec: serialization of a scannable fingerprint. -/
def ScannableFingerprint.serialize (s : ScannableFingerprint) : Bytes :=
  varintEncode s.version ++ lenPrefixed s.localFingerprint ++
    lenPrefixed s.remoteFingerprint

/-- Modelled from the spec: deserialization of a scannable fingerprint. -/
def ScannableFingerprint.deserializeOpt (data : Bytes) :
    Option ScannableFingerprint := do
  let (v, r1) ← varintDecode data
  let (l, r2) ← readLenPrefixed r1
  let (rm, r3) ← readLenPrefixed r2
  if r3 = [] then some ⟨v, l, rm⟩ else none

theorem readLenPrefixed_exact (l : Bytes) :
    readLenPrefixed (lenPrefixed l) = some (l, []) := by
  have h := readLenPrefixed_append l []
  simpa using h

theorem scannableFingerprint_decode_encode (s : ScannableFingerprint) :
    ScannableFingerprint.deserializeOpt s.serialize = some s := by
  simp [ScannableFingerprint.deserializeOpt, ScannableFingerprint.serialize,
    varintDecode_encode, readLenPrefixed_append, readLenPrefixed_exact]

/-- Modelled from the spec: fingerprint comparison checks the two sides in
swapped order against the other peer's serialized encoding; differing
versions are an error, not a mismatch. -/
def ScannableFingerprint.compare (s : ScannableFingerprint) (other : Bytes) :
    Except SignalProtocolError Bool :=
  match ScannableFingerprint.deserializeOpt other with
  | none => .error (.InvalidMessage "malformed scannable fingerprint")
  | some o =>
    if s.version ≠ o.version then
      .error (.InvalidMessage "fingerprint version mismatch")
    else
      .ok (decide (s.localFingerprint = o.remoteFingerprint ∧
        s.remoteFingerprint = o.localFingerprint))

/-- Modelled from the spec: the derived fingerprint value, pairing a
displayable encoding with the scannable encoding. -/
structure Fingerprint where
  display : Bytes
  scannable : ScannableFingerprint
  deriving DecidableEq

/-- Shallow embedding of the bridge function Fingerprint_New: both
component hashes computed over (identifier, identity key), local first. -/
def Fingerprint_New (iterations version : Nat) (local_identifier : Bytes)
    (local_key : PublicKey) (remote_identifier : Bytes) (remote_key : PublicKey) :
    Fingerprint :=
  let lf := fingerprintHash iterations local_identifier local_key
  let rf := fingerprintHash iterations remote_identifier remote_key
  ⟨lf ++ rf, ⟨version, lf, rf⟩⟩

/-- Shallow embedding of the bridge function ScannableFingerprint_Compare:
deserialize the first encoding and compare it against the second. -/
def ScannableFingerprint_Compare (fprint1 fprint2 : Bytes) :
    Except SignalProtocolError Bool :=
  match ScannableFingerprint.deserializeOpt fprint1 with
  | none => .error (.InvalidMessage "malformed scannable fingerprint")
  | some s => s.compare fprint2

/-- Modelled from the spec: one ratchet state of a session record, holding
the session version, root key, optional sending chain and the receiver
chain map keyed by remote ratchet public key bytes. -/
structure SessionState where
  session_version : Nat
  root_key : Nat
  sender_chain_key : Option Nat
  receiver_chains : List (Bytes × Nat)
  deriving DecidableEq

/-- Modelled from the spec: a session record, an optional current state
plus archived history states. -/
structure SessionRecord where
  current_session : Option SessionState
  previous_sessions : List SessionState
  deriving DecidableEq

/-- Modelled from the spec: the session-version query of the protocol
crate, an InvalidState error when the record has no current state. -/
def SessionRecord.session_version (s : SessionRecord) :
    Except SignalProtocolError Nat :=
  match s.current_session with
  | some st => .ok st.session_version
  | none => .error (.InvalidState "session_version" "No current session")

/-- Shallow embedding of the error handling in the bridge function
SessionRecord_GetSessionVersion: InvalidState becomes the default 0, every
other error propagates unchanged. -/
def sessionVersionOrDefault (r : Except SignalProtocolError Nat) :
    Except SignalProtocolError Nat :=
  match r with
  | .ok v => .ok v
  | .error (.InvalidState _ _) => .ok 0
  | .error e => .error e

/-- Shallow embedding of the bridge function SessionRecord_GetSessionVersion. -/
def SessionRecord_GetSessionVersion (s : SessionRecord) :
    Except SignalProtocolError Nat :=
  sessionVersionOrDefault s.session_version

/-- Modelled from the spec: the HKDF expansion of the concatenated X3DH
secrets into one labelled output word. -/
def kdfMix (label : Nat) (secrets : List Nat) : Nat :=
  secrets.foldl (fun acc s => acc * 1009 + s) label

/-- Modelled from the spec: the root key derived from the X3DH secrets. -/
def deriveRootKey (secrets : List Nat) : Nat := kdfMix 1 secrets

/-- Modelled from the spec: the initial chain key derived from the X3DH
secrets. -/
def deriveChainKey (secrets : List Nat) : Nat := kdfMix 2 secrets

/-- Modelled from the spec: one step of the HMAC-based symmetric ratchet of
section 4.3; the message key is the step at byte 0x01. -/
def hmacStep (chainKey : Nat) (b : Nat) : Nat := chainKey * 257 + b

/-- Modelled from the spec: the per-message key derived from a chain key. -/
def firstMessageKey (chainKey : Nat) : Nat := hmacStep chainKey 1

/-- Modelled from the spec: X3DH initiator session setup; three DH values
in the fixed order identity-to-signed-prekey, base-to-identity,
base-to-signed-prekey (plus base-to-onetime-prekey when present), expanded
into a root key and an initial chain key, with a sending chain and no
receiving chain. -/
def initialize_alice_session_record (our_identity_private : PrivateKey)
    (our_base_private : PrivateKey) (their_identity_key : PublicKey)
    (their_signed_prekey : PublicKey) (their_one_time_prekey : Option PublicKey)
    (their_ratchet_key : PublicKey) : SessionRecord :=
  let _ := their_ratchet_key
  let secrets :=
    [dhAgree our_identity_private their_signed_prekey,
     dhAgree our_base_private their_identity_key,
     dhAgree our_base_private their_signed_prekey] ++
    (match their_one_time_prekey with
     | none => []
     | some opk => [dhAgree our_base_private opk])
  { current_session := some
      { session_version := CIPHERTEXT_CURRENT_VERSION,
        root_key := deriveRootKey secrets,
        sender_chain_key := some (deriveChainKey secrets),
        receiver_chains := [] },
    previous_sessions := [] }

/-- Modelled from the spec: X3DH responder session setup; the same DH
sequence mirrored, deriving the root and chain key identically, with a
receiving chain only, keyed to the sender's base key. -/
def initialize_bob_session_record (our_identity_private : PrivateKey)
    (our_signed_prekey_private : PrivateKey)
    (our_one_time_prekey_private : Option PrivateKey)
    (our_ratchet_private : PrivateKey) (their_identity_key : PublicKey)
    (their_base_key : PublicKey) : SessionRecord :=
  let _ := our_ratchet_private
  let secrets :=
    [dhAgree our_signed_prekey_private their_identity_key,
     dhAgree our_identity_private their_base_key,
     dhAgree our_signed_prekey_private their_base_key] ++
    (match our_one_time_prekey_private with
     | none => []
     | some opk => [dhAgree opk their_base_key])
  { current_session := some
      { session_version := CIPHERTEXT_CURRENT_VERSION,
        root_key := deriveRootKey secrets,
        sender_chain_key := none,
        receiver_chains := [(their_base_key.bytes, deriveChainKey secrets)] },
    previous_sessions := [] }

/-- Shallow embedding of the bridge function
SessionRecord_InitializeAliceSession: pairs the passed key halves and runs
the initiator setup with no one-time pre-key. -/
def SessionRecord_InitializeAliceSession (identity_key_private : PrivateKey)
    (identity_key_public : PublicKey) (base_private : PrivateKey)
    (base_public : PublicKey) (their_identity_key : PublicKey)
    (their_signed_prekey : PublicKey) (their_ratchet_key : PublicKey) :
    SessionRecord :=
  let _ := identity_key_public
  let _ := base_public
  initialize_alice_session_record identity_key_private base_private
    their_identity_key their_signed_prekey none their_ratchet_key

/-- Shallow embedding of the bridge function
SessionRecord_InitializeBobSession: pairs the passed key halves and runs
the responder setup with no one-time pre-key. -/
def SessionRecord_InitializeBobSession (identity_key_private : PrivateKey)
    (identity_key_public : PublicKey) (signed_prekey_private : PrivateKey)
    (signed_prekey_public : PublicKey) (eph_private : PrivateKey)
    (eph_public : PublicKey) (their_identity_key : PublicKey)
    (their_base_key : PublicKey) : SessionRecord :=
  let _ := identity_key_public
  let _ := signed_prekey_public
  let _ := eph_public
  initialize_bob_session_record identity_key_private signed_prekey_private none
    eph_private their_identity_key their_base_key

/-- Modelled from the spec: the published pre-key bundle of a peer. -/
structure PreKeyBundle where
  registration_id : Nat
  device_id : Nat
  pre_key : Option (Nat × PublicKey)
  signed_pre_key_id : Nat
  signed_pre_key : PublicKey
  signed_pre_key_signature : Bytes
  identity_key : PublicKey
  deriving DecidableEq

/-- Shallow embedding of the bridge function PreKeyBundle_New: the pre-key
and its id must be supplied together or not at all. -/
def PreKeyBundle_New (registration_id : Nat) (device_id : Nat)
    (prekey_id : Option Nat) (prekey : Option PublicKey) (signed_prekey_id : Nat)
    (signed_prekey : PublicKey) (signed_prekey_signature : Bytes)
    (identity_key : PublicKey) : Except SignalProtocolError PreKeyBundle :=
  match prekey, prekey_id with
  | none, none =>
    .ok ⟨registration_id, device_id, none, signed_prekey_id, signed_prekey,
      signed_prekey_signature, identity_key⟩
  | some k, some id =>
    .ok ⟨registration_id, device_id, some (id, k), signed_prekey_id,
      signed_prekey, signed_prekey_signature, identity_key⟩
  | _, _ =>
    .error (.InvalidArgument "Must supply both or neither of prekey and prekey_id")

/-- The ciphertext message type tags of the protocol crate; the numeric
codes are pinned by the const_assert_eq lines of the source next to
FfiCiphertextMessageType. -/
inductive CiphertextMessageType where
  | Whisper
  | PreKey
  | SenderKey
  | SenderKeyDistribution
  deriving DecidableEq

/-- Numeric code of a ciphertext message type, as in the source's
FfiCiphertextMessageType (Whisper = 2, PreKey = 3, SenderKey = 4,
SenderKeyDistribution = 5). -/
def CiphertextMessageType.asU8 : CiphertextMessageType → Nat
  | .Whisper => 2
  | .PreKey => 3
  | .SenderKey => 4
  | .SenderKeyDistribution => 5

/-- Modelled from the spec: the inner authenticated sealed-sender payload,
a message type tag, a SenderCertificate and the raw content bytes. -/
structure UnidentifiedSenderMessageContent where
  msg_type : CiphertextMessageType
  sender : SenderCertificate
  contents : Bytes
  deriving DecidableEq

/-- Shallow embedding of the bridge function
UnidentifiedSenderMessageContent_New: only msg_type codes 1 (PreKey) and 2
(Whisper) are accepted, per the protobuf encoding noted in the source. -/
def UnidentifiedSenderMessageContent_New (msg_type : Nat)
    (sender : SenderCertificate) (contents : Bytes) :
    Except SignalProtocolError UnidentifiedSenderMessageContent :=
  match msg_type with
  | 1 => .ok ⟨.PreKey, sender, contents⟩
  | 2 => .ok ⟨.Whisper, sender, contents⟩
  | x => .error (.InvalidArgument ("invalid msg_type argument " ++ toString x))

/-- Shallow embedding of the bridge function
UnidentifiedSenderMessageContent_GetMsgType: the stored type tag cast to
its numeric code. -/
def UnidentifiedSenderMessageContent_GetMsgType
    (m : UnidentifiedSenderMessageContent) : Except SignalProtocolError Nat :=
  .ok m.msg_type.asU8

theorem set_ne_of_getElem_ne (l : Bytes) :
    ∀ (i b : Nat) (hi : i < l.length), b ≠ l.get ⟨i, hi⟩ → l.set i b ≠ l := by
  induction l with
  | nil =>
    intro i b hi
    simp at hi
  | cons x xs ih =>
    intro i b hi hb h
    cases i with
    | zero =>
      simp only [List.set] at h
      injection h with h1 _
      exact hb h1
    | succ n =>
      simp only [List.set] at h
      injection h with _ h2
      exact ih n b (Nat.lt_of_succ_lt_succ hi) hb h2

/-- Concrete SignalMessage used by the round-trip witness. -/
def signalMessageExample : SignalMessage :=
  ⟨3, ⟨List.replicate 32 7⟩, 5, 300, [9, 9, 9], List.replicate 8 1⟩

/-- Concrete PreKeySignalMessage (optional pre-key id present) used by the
round-trip witness. -/
def preKeySignalMessageExample : PreKeySignalMessage :=
  ⟨3, 42, some 7, 11, ⟨List.replicate 32 2⟩, ⟨List.replicate 32 4⟩,
    signalMessageExample⟩

/-- C1: for every wire message type exposed by the bridge (SignalMessage,
PreKeySignalMessage, SenderKeyMessage, SenderKeyDistributionMessage, and
the two certificate types) and every valid combination of fields, optional
fields absent or present, deserializing the serialized bytes yields the
original message. -/
theorem claim_C1_roundtrip :
    (∀ m : SignalMessage, m.Valid →
      SignalMessage.try_from m.serialized = .ok m) ∧
    (∀ p : PreKeySignalMessage, p.Valid →
      PreKeySignalMessage.try_from p.serialized = .ok p) ∧
    (∀ m : SenderKeyMessage, m.Valid →
      SenderKeyMessage.try_from m.serialized = .ok m) ∧
    (∀ m : SenderKeyDistributionMessage, m.Valid →
      SenderKeyDistributionMessage.try_from m.serialized = .ok m) ∧
    (∀ c : ServerCertificate, c.Valid →
      ServerCertificate.deserialize c.serialized = .ok c) ∧
    (∀ c : SenderCertificate, c.Valid →
      SenderCertificate.deserialize c.serialized = .ok c) := by
  refine ⟨fun m h => ?_, fun p h => ?_, fun m h => ?_, fun m h => ?_,
    fun c h => ?_, fun c h => ?_⟩
  · rw [SignalMessage.try_from, signalMessage_decode_encode m h]
  · rw [PreKeySignalMessage.try_from, PreKeysignalMessage_decode_encode p h]
  · rw [SenderKeyMessage.try_from, senderKeyMessage_decode_encode m h]
  · rw [SenderKeyDistributionMessage.try_from,
      senderKeyDistributionMessage_decode_encode m h]
  · rw [ServerCertificate.deserialize, serverCertificate_decode_encode c h]
  · rw [SenderCertificate.deserialize, senderCertificate_decode_encode c h]

/-- Witness for C1: the PreKeySignalMessage round trip at a concrete
message whose optional pre-key id is present. -/
theorem claim_C1_roundtrip_witness :
    preKeySignalMessageExample.Valid ∧
      PreKeySignalMessage.try_from preKeySignalMessageExample.serialized =
        .ok preKeySignalMessageExample :=
  ⟨by decide, claim_C1_roundtrip.2.1 preKeySignalMessageExample (by decide)⟩

/-- C3: querying the session version on a record with no current state
returns 0 instead of the InvalidState error; a record with a current state
returns that state's version; every other error class from the underlying
query propagates unchanged. -/
theorem claim_C3_session_version_default :
    (∀ s : SessionRecord, s.current_session = none →
      SessionRecord_GetSessionVersion s = .ok 0) ∧
    (∀ s : SessionRecord, ∀ st : SessionState, s.current_session = some st →
      SessionRecord_GetSessionVersion s = .ok st.session_version) ∧
    (∀ e : SignalProtocolError, (∀ a b, e ≠ .InvalidState a b) →
      sessionVersionOrDefault (.error e) = .error e) := by
  refine ⟨fun s h => ?_, fun s st h => ?_, fun e h => ?_⟩
  · rw [SessionRecord_GetSessionVersion, SessionRecord.session_version, h]
    rfl
  · rw [SessionRecord_GetSessionVersion, SessionRecord.session_version, h]
    rfl
  · cases e with
    | InvalidState a b => exact absurd rfl (h a b)
    | InvalidArgument msg => rfl
    | InvalidKey msg => rfl
    | InvalidMessage msg => rfl
    | SignatureVerificationFailed => rfl

/-- Witness for C3: the empty record yields 0, a one-state record yields
its version, and a non-InvalidState error passes through. -/
theorem claim_C3_session_version_default_witness :
    SessionRecord_GetSessionVersion ⟨none, []⟩ = .ok 0 ∧
      SessionRecord_GetSessionVersion ⟨some ⟨3, 0, none, []⟩, []⟩ = .ok 3 ∧
      sessionVersionOrDefault (.error .SignatureVerificationFailed) =
        .error .SignatureVerificationFailed :=
  ⟨claim_C3_session_version_default.1 ⟨none, []⟩ rfl,
   claim_C3_session_version_default.2.1 ⟨some ⟨3, 0, none, []⟩, []⟩ ⟨3, 0, none, []⟩ rfl,
   claim_C3_session_version_default.2.2 .SignatureVerificationFailed
     (fun _ _ h => SignalProtocolError.noConfusion h)⟩

/-- C2: with matching key material (same identity keys, base key, signed
pre-key doubling as ratchet key, no one-time pre-key) the initiator and
responder session records hold identical root keys, and the first message
key on the initiator's sending chain equals the one on the responder's
receiving chain for the initiator's base key. -/
theorem claim_C2_x3dh_symmetry (idA baseA idB spkB ephB : PrivateKey) :
    ∃ sa sb : SessionState,
      (SessionRecord_InitializeAliceSession idA (pubKeyOf idA) baseA
        (pubKeyOf baseA) (pubKeyOf idB) (pubKeyOf spkB)
        (pubKeyOf spkB)).current_session = some sa ∧
      (SessionRecord_InitializeBobSession idB (pubKeyOf idB) spkB
        (pubKeyOf spkB) ephB (pubKeyOf ephB) (pubKeyOf idA)
        (pubKeyOf baseA)).current_session = some sb ∧
      sa.root_key = sb.root_key ∧
      ∃ ck_a ck_b : Nat,
        sa.sender_chain_key = some ck_a ∧
        sb.receiver_chains = [((pubKeyOf baseA).bytes, ck_b)] ∧
        firstMessageKey ck_a = firstMessageKey ck_b := by
  have h1 := dhAgree_comm idA spkB
  have h2 := dhAgree_comm baseA idB
  have h3 := dhAgree_comm baseA spkB
  refine ⟨_, _, rfl, rfl, ?_, _, _, rfl, rfl, ?_⟩
  · show deriveRootKey _ = deriveRootKey _
    rw [h1, h2, h3]
  · show firstMessageKey (deriveChainKey _) = firstMessageKey (deriveChainKey _)
    rw [h1, h2, h3]

/-- Concrete trust-root key of the certificate witnesses. -/
def trustRootExample : PublicKey := ⟨[9]⟩

/-- Concrete genuinely-signed ServerCertificate; the signed byte range does
not cover the signature field, so the certificate can name itself. -/
def serverCertExample : ServerCertificate :=
  ⟨1, ⟨[8]⟩, mockSig trustRootExample (ServerCertificate.certificate ⟨1, ⟨[8]⟩, []⟩)⟩

/-- Concrete genuinely-signed SenderCertificate expiring at time 10. -/
def senderCertExample : SenderCertificate :=
  ⟨[117], none, 1, ⟨[7]⟩, 10, serverCertExample,
    mockSig serverCertExample.key
      (SenderCertificate.certificate
        ⟨[117], none, 1, ⟨[7]⟩, 10, serverCertExample, []⟩)⟩

/-- C4: a genuinely signed SenderCertificate is rejected when the
validation time equals its expiration, accepted at expiration minus one,
and rejected whenever the ServerCertificate signature is altered in any
single byte. -/
theorem claim_C4_certificate_validation (c : SenderCertificate)
    (trustRoot : PublicKey)
    (hss : c.signer.signature = mockSig trustRoot c.signer.certificate)
    (hcs : c.signature = mockSig c.signer.key c.certificate) :
    SenderCertificate_Validate c trustRoot c.expiration = .ok false ∧
    (1 ≤ c.expiration →
      SenderCertificate_Validate c trustRoot (c.expiration - 1) = .ok true) ∧
    (∀ (i b : Nat) (hi : i < c.signer.signature.length),
      b ≠ c.signer.signature.get ⟨i, hi⟩ →
      ∀ t : Nat,
        SenderCertificate_Validate
          { c with signer := { c.signer with
              signature := c.signer.signature.set i b } } trustRoot t = .ok false) := by
  have hlen : c.signer.signature.length = SIG_LEN := by rw [hss, mockSig_length]
  have hlen2 : c.signature.length = SIG_LEN := by rw [hcs, mockSig_length]
  refine ⟨?_, fun hexp => ?_, fun i b hi hb t => ?_⟩
  · simp [SenderCertificate_Validate, SenderCertificate.validate,
      PublicKey.verify_signature, hlen, hlen2, hss, hcs, mockSig_length,
      bind, Except.bind, pure, Except.pure]
  · have hpos : 0 < c.expiration := hexp
    have hlt : c.expiration - 1 < c.expiration := Nat.sub_lt hpos Nat.one_pos
    simp [SenderCertificate_Validate, SenderCertificate.validate,
      PublicKey.verify_signature, hlen, hlen2, hss, hcs, mockSig_length, hlt,
      bind, Except.bind, pure, Except.pure]
  · have hset : c.signer.signature.set i b ≠
        mockSig trustRoot c.signer.certificate := by
      rw [← hss]
      exact set_ne_of_getElem_ne _ i b hi hb
    have hsetlen : (c.signer.signature.set i b).length = SIG_LEN := by
      simpa using hlen
    have hcert : ServerCertificate.certificate
        { c.signer with signature := c.signer.signature.set i b } =
        c.signer.certificate := rfl
    simp [SenderCertificate_Validate, SenderCertificate.validate,
      PublicKey.verify_signature, hsetlen, hlen2, hcert, hset,
      bind, Except.bind, pure, Except.pure]

/-- Witness for C4: the concrete genuinely-signed certificate is rejected
at its expiration 10, accepted at 9, and rejected after tampering byte 0 of
the server signature. -/
theorem claim_C4_certificate_validation_witness :
    SenderCertificate_Validate senderCertExample trustRootExample 10 = .ok false ∧
    SenderCertificate_Validate senderCertExample trustRootExample 9 = .ok true ∧
    SenderCertificate_Validate
      { senderCertExample with signer := { senderCertExample.signer with
          signature := senderCertExample.signer.signature.set 0 255 } }
      trustRootExample 9 = .ok false := by
  have h := claim_C4_certificate_validation senderCertExample trustRootExample
    rfl rfl
  exact ⟨h.1, h.2.1 (by decide), h.2.2 0 255 (by decide) (by decide) 9⟩

theorem fingerprintHash_ne_of_key_ne (iterations : Nat) (ident : Bytes)
    (k1 k2 : PublicKey) (h : k1 ≠ k2) :
    fingerprintHash iterations ident k1 ≠ fingerprintHash iterations ident k2 := by
  intro hEq
  exact h (fingerprintData_inj_key ident k1 k2 (iterHash_inj iterations _ _ hEq))

/-- C5: the scannable encodings produced for the same key material with
local and remote roles swapped compare successfully in both directions, and
comparison fails whenever either identity key is altered in any single
byte on one side. -/
theorem claim_C5_fingerprint_symmetry (iterations version : Nat)
    (idA idB : Bytes) (kA kB : PublicKey) :
    (ScannableFingerprint_Compare
      (Fingerprint_New iterations version idA kA idB kB).scannable.serialize
      (Fingerprint_New iterations version idB kB idA kA).scannable.serialize =
      .ok true) ∧
    (ScannableFingerprint_Compare
      (Fingerprint_New iterations version idB kB idA kA).scannable.serialize
      (Fingerprint_New iterations version idA kA idB kB).scannable.serialize =
      .ok true) ∧
    (∀ (i b : Nat) (hi : i < kB.bytes.length), b ≠ kB.bytes.get ⟨i, hi⟩ →
      ScannableFingerprint_Compare
        (Fingerprint_New iterations version idA kA idB kB).scannable.serialize
        (Fingerprint_New iterations version idB ⟨kB.bytes.set i b⟩
          idA kA).scannable.serialize = .ok false) ∧
    (∀ (i b : Nat) (hi : i < kA.bytes.length), b ≠ kA.bytes.get ⟨i, hi⟩ →
      ScannableFingerprint_Compare
        (Fingerprint_New iterations version idA kA idB kB).scannable.serialize
        (Fingerprint_New iterations version idB kB idA
          ⟨kA.bytes.set i b⟩).scannable.serialize = .ok false) := by
  refine ⟨?_, ?_, fun i b hi hb => ?_, fun i b hi hb => ?_⟩
  · simp [ScannableFingerprint_Compare, ScannableFingerprint.compare,
      scannableFingerprint_decode_encode, Fingerprint_New]
  · simp [ScannableFingerprint_Compare, ScannableFingerprint.compare,
      scannableFingerprint_decode_encode, Fingerprint_New]
  · have hkne : kB ≠ (⟨kB.bytes.set i b⟩ : PublicKey) := by
      intro h
      exact set_ne_of_getElem_ne kB.bytes i b hi hb (congrArg PublicKey.bytes h).symm
    have hne := fingerprintHash_ne_of_key_ne iterations idB kB ⟨kB.bytes.set i b⟩ hkne
    simp [ScannableFingerprint_Compare, ScannableFingerprint.compare,
      scannableFingerprint_decode_encode, Fingerprint_New, hne]
  · have hkne : kA ≠ (⟨kA.bytes.set i b⟩ : PublicKey) := by
      intro h
      exact set_ne_of_getElem_ne kA.bytes i b hi hb (congrArg PublicKey.bytes h).symm
    have hne := fingerprintHash_ne_of_key_ne iterations idA kA ⟨kA.bytes.set i b⟩ hkne
    simp [ScannableFingerprint_Compare, ScannableFingerprint.compare,
      scannableFingerprint_decode_encode, Fingerprint_New, hne]

/-- Witness for C5: the same-material comparison succeeds and the
single-byte tamper fails on concrete keys. -/
theorem claim_C5_fingerprint_symmetry_witness :
    ScannableFingerprint_Compare
      (Fingerprint_New 2 1 [1] ⟨[3]⟩ [2] ⟨[4]⟩).scannable.serialize
      (Fingerprint_New 2 1 [2] ⟨(([4] : Bytes).set 0 9)⟩
        [1] ⟨[3]⟩).scannable.serialize = .ok false :=
  (claim_C5_fingerprint_symmetry 2 1 [1] [2] ⟨[3]⟩ ⟨[4]⟩).2.2.1 0 9 (by decide)
    (by decide)

/-- C6: PreKeyBundle_New errors with InvalidArgument exactly when one of
prekey and prekey_id is supplied without the other; with both absent the
bundle has no one-time pre-key, and with both present it carries the
pair. -/
theorem claim_C6_prekey_bundle_pairing :
    (∀ rid did spkid spk sigb ik,
      PreKeyBundle_New rid did none none spkid spk sigb ik =
        .ok ⟨rid, did, none, spkid, spk, sigb, ik⟩) ∧
    (∀ rid did kid k spkid spk sigb ik,
      PreKeyBundle_New rid did (some kid) (some k) spkid spk sigb ik =
        .ok ⟨rid, did, some (kid, k), spkid, spk, sigb, ik⟩) ∧
    (∀ rid did pkid pk spkid spk sigb ik,
      (∃ msg, PreKeyBundle_New rid did pkid pk spkid spk sigb ik =
          .error (.InvalidArgument msg)) ↔ pk.isSome ≠ pkid.isSome) := by
  refine ⟨fun rid did spkid spk sigb ik => rfl,
    fun rid did kid k spkid spk sigb ik => rfl,
    fun rid did pkid pk spkid spk sigb ik => ?_⟩
  cases pk with
  | none =>
    cases pkid with
    | none => simp [PreKeyBundle_New]
    | some kid => simp [PreKeyBundle_New]
  | some k =>
    cases pkid with
    | none => simp [PreKeyBundle_New]
    | some kid => simp [PreKeyBundle_New]

theorem compareBytes_eq_iff (a : Bytes) : ∀ b : Bytes,
    compareBytes a b = .eq ↔ a = b := by
  induction a with
  | nil =>
    intro b
    cases b <;> simp [compareBytes]
  | cons x xs ih =>
    intro b
    cases b with
    | nil => simp [compareBytes]
    | cons y ys =>
      rcases Nat.lt_trichotomy x y with h | h | h
      · simp [compareBytes, h, Nat.ne_of_lt h]
      · subst h
        simp [compareBytes, ih]
      · simp [compareBytes, h, Nat.lt_asymm h, Ne.symm (Nat.ne_of_lt h)]

theorem compareBytes_swap (a : Bytes) : ∀ b : Bytes,
    compareBytes b a = (compareBytes a b).swap := by
  induction a with
  | nil =>
    intro b
    cases b <;> simp [compareBytes, Ordering.swap]
  | cons x xs ih =>
    intro b
    cases b with
    | nil => simp [compareBytes, Ordering.swap]
    | cons y ys =>
      rcases Nat.lt_trichotomy x y with h | h | h
      · simp [compareBytes, h, Nat.lt_asymm h, Ordering.swap]
      · subst h
        simp [compareBytes, ih]
      · simp [compareBytes, h, Nat.lt_asymm h, Ordering.swap]

theorem compareBytes_lt_trans (a : Bytes) : ∀ b c : Bytes,
    compareBytes a b = .lt → compareBytes b c = .lt → compareBytes a c = .lt := by
  induction a with
  | nil =>
    intro b c hab hbc
    cases b with
    | nil => simp [compareBytes] at hab
    | cons y ys =>
      cases c with
      | nil => simp [compareBytes] at hbc
      | cons z zs => simp [compareBytes]
  | cons x xs ih =>
    intro b c hab hbc
    cases b with
    | nil => simp [compareBytes] at hab
    | cons y ys =>
      cases c with
      | nil => simp [compareBytes] at hbc
      | cons z zs =>
        rcases Nat.lt_trichotomy x y with h1 | h1 | h1
        · rcases Nat.lt_trichotomy y z with h2 | h2 | h2
          · simp [compareBytes, Nat.lt_trans h1 h2]
          · subst h2
            simp [compareBytes, h1]
          · simp [compareBytes, Nat.lt_asymm h2, h2] at hbc
        · subst h1
          simp only [compareBytes, Nat.lt_irrefl, if_false] at hab
          rcases Nat.lt_trichotomy x z with h2 | h2 | h2
          · simp [compareBytes, h2]
          · subst h2
            simp only [compareBytes, Nat.lt_irrefl, if_false] at hbc ⊢
            exact ih ys zs hab hbc
          · simp [compareBytes, Nat.lt_asymm h2, h2] at hbc
        · simp [compareBytes, Nat.lt_asymm h1, h1] at hab

/-- C7: ECPublicKey_Compare realizes a deterministic total order: its value
is always one of -1, 0, 1; it is 0 exactly on equal keys; it is
antisymmetric; and the strict order it induces is transitive. -/
theorem claim_C7_compare_total_order :
    (∀ a b : PublicKey, ECPublicKey_Compare a b = -1 ∨
      ECPublicKey_Compare a b = 0 ∨ ECPublicKey_Compare a b = 1) ∧
    (∀ a b : PublicKey, ECPublicKey_Compare a b = 0 ↔ a = b) ∧
    (∀ a b : PublicKey, ECPublicKey_Compare a b = -ECPublicKey_Compare b a) ∧
    (∀ a b c : PublicKey, ECPublicKey_Compare a b = -1 →
      ECPublicKey_Compare b c = -1 → ECPublicKey_Compare a c = -1) := by
  refine ⟨fun a b => ?_, fun a b => ?_, fun a b => ?_, fun a b c hab hbc => ?_⟩
  · rcases h : compareBytes a.bytes b.bytes <;>
      simp [ECPublicKey_Compare, h]
  · have hbytes : a = b ↔ a.bytes = b.bytes := by
      cases a
      cases b
      simp
    rcases h : compareBytes a.bytes b.bytes <;>
      simp [ECPublicKey_Compare, h, hbytes, ← compareBytes_eq_iff, h]
  · have hswap := compareBytes_swap a.bytes b.bytes
    rcases h : compareBytes a.bytes b.bytes <;>
      rw [h] at hswap <;>
      simp [ECPublicKey_Compare, h, hswap, Ordering.swap]
  · have h1 : compareBytes a.bytes b.bytes = .lt := by
      rcases h : compareBytes a.bytes b.bytes <;>
        simp [ECPublicKey_Compare, h] at hab ⊢
    have h2 : compareBytes b.bytes c.bytes = .lt := by
      rcases h : compareBytes b.bytes c.bytes <;>
        simp [ECPublicKey_Compare, h] at hbc ⊢
    simp [ECPublicKey_Compare, compareBytes_lt_trans a.bytes b.bytes c.bytes h1 h2]

/-- Witness for C7: transitivity applied at three concrete keys. -/
theorem claim_C7_compare_total_order_witness :
    ECPublicKey_Compare ⟨[1, 5]⟩ ⟨[2, 0]⟩ = -1 :=
  claim_C7_compare_total_order.2.2.2 ⟨[1, 5]⟩ ⟨[1, 9]⟩ ⟨[2, 0]⟩ (by decide) (by decide)

/-- C8: ECPublicKey_Verify returns Ok false (not an error) on a well-formed
signature that does not match, and an error (not false) on a malformed
signature length. -/
theorem claim_C8_verify_mismatch_vs_malformed :
    (∀ (key : PublicKey) (message sigb : Bytes), sigb.length = SIG_LEN →
      sigb ≠ mockSig key message → ECPublicKey_Verify key message sigb = .ok false) ∧
    (∀ (key : PublicKey) (message sigb : Bytes), sigb.length ≠ SIG_LEN →
      ECPublicKey_Verify key message sigb =
        .error (.InvalidArgument "bad signature length")) := by
  refine ⟨fun key message sigb hlen hne => ?_, fun key message sigb hlen => ?_⟩
  · simp [ECPublicKey_Verify, PublicKey.verify_signature, hlen, hne]
  · simp [ECPublicKey_Verify, PublicKey.verify_signature, hlen]

/-- Witness for C8: a 64-byte all-zero signature mismatches and yields
Ok false; a 1-byte signature yields an error. -/
theorem claim_C8_verify_mismatch_vs_malformed_witness :
    ECPublicKey_Verify ⟨[1]⟩ [2] (List.replicate 64 0) = .ok false ∧
      ECPublicKey_Verify ⟨[1]⟩ [2] [0] =
        .error (.InvalidArgument "bad signature length") :=
  ⟨claim_C8_verify_mismatch_vs_malformed.1 ⟨[1]⟩ [2] (List.replicate 64 0)
      (by decide) (by decide),
   claim_C8_verify_mismatch_vs_malformed.2 ⟨[1]⟩ [2] [0] (by decide)⟩

/-- C9: the offset-taking bridge deserialization is not total: an offset
beyond the data length is the Rust slice panic (the outer none), while the
plain deserialization entry point returns a typed error on malformed
input (any length other than tag plus fixed-width payload). -/
theorem claim_C9_deserialize_offset_panic :
    (∀ (data : Bytes) (offset : Nat), data.length < offset →
      ECPublicKey_Deserialize data offset = none) ∧
    (∀ (data : Bytes) (offset : Nat), offset ≤ data.length →
      ECPublicKey_Deserialize data offset =
        some (PublicKey.deserialize (data.drop offset))) ∧
    (∀ v : Bytes, v.length ≠ KEY_LEN + 1 →
      ∃ msg, PublicKey.deserialize v = .error (.InvalidKey msg)) := by
  refine ⟨fun data offset h => ?_, fun data offset h => ?_, fun v hv => ?_⟩
  · simp [ECPublicKey_Deserialize, Nat.not_le.mpr h]
  · simp [ECPublicKey_Deserialize, h]
  · cases v with
    | nil => exact ⟨"no key type identifier", rfl⟩
    | cons t rest =>
      by_cases ht : t = DJB_TYPE
      · have hrest : rest.length ≠ KEY_LEN := by
          simp only [List.length_cons] at hv
          omega
        refine ⟨"bad key length", ?_⟩
        simp [PublicKey.deserialize, ht, hrest]
      · refine ⟨"bad key type identifier", ?_⟩
        simp [PublicKey.deserialize, ht]

/-- Witness for C9: offset 3 on 2-byte data is the panic; offset 1 slices
and fails with the typed error; the empty input gives the typed error. -/
theorem claim_C9_deserialize_offset_panic_witness :
    ECPublicKey_Deserialize [5, 0] 3 = none ∧
      ECPublicKey_Deserialize [5, 0] 1 =
        some (PublicKey.deserialize [0]) ∧
      ∃ msg, PublicKey.deserialize ([] : Bytes) = .error (.InvalidKey msg) :=
  ⟨claim_C9_deserialize_offset_panic.1 [5, 0] 3 (by decide),
   claim_C9_deserialize_offset_panic.2.1 [5, 0] 1 (by decide),
   claim_C9_deserialize_offset_panic.2.2 [] (by decide)⟩

/-- C10: the constructor accepts only msg_type codes 1 (PreKey) and 2
(Whisper) and rejects every other code with InvalidArgument; because the
exported type codes are Whisper = 2 and PreKey = 3, reading back the type
of a content built with code 1 gives 3, so input codes and returned codes
are different encodings. -/
theorem claim_C10_msg_type_codes :
    (∀ (s : SenderCertificate) (c : Bytes),
      UnidentifiedSenderMessageContent_New 1 s c = .ok ⟨.PreKey, s, c⟩ ∧
      UnidentifiedSenderMessageContent_GetMsgType ⟨.PreKey, s, c⟩ = .ok 3) ∧
    (∀ (s : SenderCertificate) (c : Bytes),
      UnidentifiedSenderMessageContent_New 2 s c = .ok ⟨.Whisper, s, c⟩ ∧
      UnidentifiedSenderMessageContent_GetMsgType ⟨.Whisper, s, c⟩ = .ok 2) ∧
    (∀ (x : Nat) (s : SenderCertificate) (c : Bytes), x ≠ 1 → x ≠ 2 →
      UnidentifiedSenderMessageContent_New x s c =
        .error (.InvalidArgument ("invalid msg_type argument " ++ toString x))) ∧
    (CiphertextMessageType.Whisper.asU8 = 2 ∧ CiphertextMessageType.PreKey.asU8 = 3 ∧
      CiphertextMessageType.SenderKey.asU8 = 4 ∧
      CiphertextMessageType.SenderKeyDistribution.asU8 = 5) := by
  refine ⟨fun s c => ⟨rfl, rfl⟩, fun s c => ⟨rfl, rfl⟩,
    fun x s c h1 h2 => ?_, rfl, rfl, rfl, rfl⟩
  rcases Nat.lt_or_ge x 3 with h | h
  · interval_cases x
    · rfl
    · exact absurd rfl h1
    · exact absurd rfl h2
  · obtain ⟨n, rfl⟩ : ∃ n, x = n + 3 := ⟨x - 3, by omega⟩
    rfl

/-- Concrete content input of the C10 witness. -/
def senderCertExample2 : SenderCertificate :=
  ⟨[117], none, 1, ⟨[7]⟩, 10, ⟨1, ⟨[8]⟩, []⟩, []⟩

/-- Witness for C10: code 5 is rejected with InvalidArgument. -/
theorem claim_C10_msg_type_codes_witness :
    UnidentifiedSenderMessageContent_New 5 senderCertExample2 [] =
      .error (.InvalidArgument ("invalid msg_type argument " ++ toString (5 : Nat))) :=
  claim_C10_msg_type_codes.2.2.1 5 senderCertExample2 [] (by decide) (by decide)

end LibsignalBridge
